import Mathlib

/-!
Shallow embedding of `src/migaccelerator.py` (classic-pipeline → YAML conversion
orchestrator) and verification of the specification's claims about it.

The remote platform and the local filesystem are modelled by an explicit
environment `Env`: every HTTP endpoint the script calls is a function from the
constructed request URL to the decoded response, and the input file is an
optional list of lines.  Each embedded function additionally returns the list
of network calls it performs, in order, so that "no network activity" and
"which request was submitted" are provable facts.

Python truthiness on optional strings (`if not x`) is modelled by `pyFalsy`
(true on `none` and on the empty string), and Python `dict` construction from
a key/value sequence by `pythonDict` (first-occurrence position, last value
wins).  The shape-(a) regular-expression search of `main` is embedded as
`reSearchShapeA`; for this particular pattern greedy matching with
backtracking coincides with maximal-run scanning (each `[^/]+` group is
followed by a literal that begins with `/`, so no shorter run can ever
match), and `re.search` tries start positions left to right, which
`reSearchShapeA` reproduces.  `\d` is modelled as an ASCII digit.
-/

namespace MigAccelerator

/-- Needle `n` is an initial segment of `h`. -/
def listStartsWith : List Char → List Char → Bool
  | [], _ => true
  | _ :: _, [] => false
  | a :: as, b :: bs => a == b && listStartsWith as bs

/-- Remove the needle from the front of `h`, if it is an initial segment. -/
def dropHead : List Char → List Char → Option (List Char)
  | [], h => some h
  | _ :: _, [] => none
  | a :: as, b :: bs => if a == b then dropHead as bs else none

/-- Substring containment test (Python `needle in hay`). -/
def containsSub (needle : List Char) : List Char → Bool
  | [] => listStartsWith needle []
  | c :: t => listStartsWith needle (c :: t) || containsSub needle t

/-- Split on a separator character (Python `str.split(sep)`:
`"".split(sep) == ['']`). -/
def splitOnChar (sep : Char) : List Char → List (List Char)
  | [] => [[]]
  | c :: t =>
    if c == sep then [] :: splitOnChar sep t
    else
      match splitOnChar sep t with
      | [] => [[c]]
      | h :: r => (c :: h) :: r

/-- Strip a given character from both ends (Python `str.strip(ch)`). -/
def stripChar (sep : Char) (l : List Char) : List Char :=
  ((l.dropWhile (fun c => c == sep)).reverse.dropWhile (fun c => c == sep)).reverse

/-- Strip whitespace from both ends (Python `str.strip()`). -/
def pyStripWs (s : String) : String :=
  String.mk (((s.toList.dropWhile Char.isWhitespace).reverse.dropWhile
    Char.isWhitespace).reverse)

/-- Locate the first `://` and return what follows it
(the netloc/path part used by `urllib.parse.urlparse`). -/
def findSchemeSep : List Char → Option (List Char)
  | [] => none
  | ':' :: '/' :: '/' :: t => some t
  | _ :: t => findSchemeSep t

/-- The `(netloc, path)` components of `urllib.parse.urlparse`, for URLs of the
form `scheme://netloc/path[?query][#fragment]`; a string without `://` has an
empty netloc and everything up to `?`/`#` as its path. -/
def urlNetlocPath (url : String) : String × String :=
  match findSchemeSep url.toList with
  | none =>
      ("", String.mk (url.toList.takeWhile (fun c => !(c == '?' || c == '#'))))
  | some rest =>
      let netloc := rest.takeWhile (fun c => !(c == '/' || c == '?' || c == '#'))
      let after := rest.drop netloc.length
      let path := after.takeWhile (fun c => !(c == '?' || c == '#'))
      (String.mk netloc, String.mk path)

/-- The dictionary returned by `parse_pipeline_url` (the spec's
PipelineReference plus the derived base URL). -/
structure PipelineInfo where
  organization : String
  project : String
  definition_id : String
  base_url : String
deriving DecidableEq

/-- Embedding of `parse_pipeline_url` (source lines 11-35): netloc must
contain `dev.azure.com` as a substring, the stripped path is split on `/`,
and segments 0, 1 and 4 are read positionally; any failure (including an
out-of-range index, Python's `IndexError`) is caught and yields `none`. -/
def parse_pipeline_url (url : String) : Option PipelineInfo :=
  let netloc := (urlNetlocPath url).1
  let path := (urlNetlocPath url).2
  if containsSub "dev.azure.com".toList netloc.toList then
    let parts := splitOnChar '/' (stripChar '/' path.toList)
    match parts.get? 0, parts.get? 1, parts.get? 4 with
    | some org, some proj, some defId =>
        some { organization := String.mk org, project := String.mk proj,
               definition_id := String.mk defId,
               base_url := "https://dev.azure.com/" ++ String.mk org ++ "/" ++
                 String.mk proj }
    | _, _, _ => none
  else none

/-- One ref update of the push payload (source lines 93-98). -/
structure RefUpdate where
  name : String
  oldObjectId : String
deriving DecidableEq

/-- One change of the push payload (source lines 102-113). -/
structure Change where
  changeType : String
  path : String
  content : String
  contentType : String
deriving DecidableEq

/-- One commit of the push payload (source lines 99-115). -/
structure Commit where
  comment : String
  changes : List Change
deriving DecidableEq

/-- The JSON body posted to the pushes endpoint (source lines 92-116). -/
structure PushData where
  refUpdates : List RefUpdate
  commits : List Commit
deriving DecidableEq

/-- One observable network call of the script, keyed by the URL the source
constructs. -/
inductive NetCall where
  | getYaml (url : String)
  | getRepos (url : String)
  | getRefs (url : String)
  | postPush (url : String) (data : PushData)
deriving DecidableEq

/-- The external world: the credential variable, the input file, and the
decoded response of each platform endpoint (status code plus payload). -/
structure Env where
  pat : Option String
  fileLines : Option (List String)
  yamlGet : String → Nat × String
  reposGet : String → Nat × List (String × String)
  refsGet : String → Nat × List String
  pushPost : String → PushData → Nat

/-- Python truthiness of an optional string: `None` and `""` are falsy. -/
def pyFalsy : Option String → Bool
  | none => true
  | some s => s == ""

/-- Insert into a Python dict: an existing key keeps its position but takes
the new value; a new key is appended. -/
def dictInsert (d : List (String × String)) (k v : String) :
    List (String × String) :=
  if d.any (fun p => p.1 == k) then
    d.map (fun p => if p.1 == k then (k, v) else p)
  else d ++ [(k, v)]

/-- The Python dict built from a key/value sequence (comprehension
`\x7brepo['name']: repo['id'] for repo in ...\x7d`). -/
def pythonDict (l : List (String × String)) : List (String × String) :=
  l.foldl (fun d p => dictInsert d p.1 p.2) []

/-- The repository-listing URL (source line 38). -/
def reposUrl (org project : String) : String :=
  "https://dev.azure.com/" ++ org ++ "/" ++ project ++
    "/_apis/git/repositories?api-version=6.0"

/-- Embedding of `get_repositories` (source lines 37-49): on status 200 the
name→id dict of the returned repositories, otherwise the empty dict. -/
def get_repositories (env : Env) (org project : String) :
    List (String × String) × List NetCall :=
  let url := reposUrl org project
  if (env.reposGet url).1 == 200 then
    (pythonDict (env.reposGet url).2, [NetCall.getRepos url])
  else ([], [NetCall.getRepos url])

/-- Embedding of `get_converted_yaml_content` (source lines 51-58): the
response body on status 200, `None` otherwise. -/
def get_converted_yaml_content (env : Env) (yamlUrl : String) :
    Option String × List NetCall :=
  if (env.yamlGet yamlUrl).1 == 200 then
    (some (env.yamlGet yamlUrl).2, [NetCall.getYaml yamlUrl])
  else (none, [NetCall.getYaml yamlUrl])

/-- The ref-listing URL (source lines 61-62). -/
def refsUrl (org project repoId branch : String) : String :=
  "https://dev.azure.com/" ++ org ++ "/" ++ project ++
    "/_apis/git/repositories/" ++ repoId ++ "/refs?filter=heads/" ++ branch ++
    "&api-version=6.0"

/-- Embedding of `get_latest_commit` (source lines 60-76): the first object id
of the ref listing when status is 200 and the value list is non-empty,
`None` otherwise. -/
def get_latest_commit (env : Env) (org project repoId branch : String) :
    Option String × List NetCall :=
  let url := refsUrl org project repoId branch
  if (env.refsGet url).1 == 200 then
    ((env.refsGet url).2.head?, [NetCall.getRefs url])
  else (none, [NetCall.getRefs url])

/-- The all-zero object-id sentinel the source hard-codes (line 96). -/
def zeroOid : String := "0000000000000000000000000000000000000000"

/-- The push payload built by `create_branch_with_yaml` (source lines
92-116): one ref update naming the new branch with the all-zero old object
id, and one commit adding the YAML file as raw text. -/
def buildPushData (defId content : String) : PushData :=
  { refUpdates := [{ name := "refs/heads/converted-pipeline-" ++ defId,
                     oldObjectId := zeroOid }],
    commits := [{ comment := "Add converted YAML pipeline (definition ID: " ++
                    defId ++ ")",
                  changes := [{ changeType := "add",
                                path := "/pipelines/converted-pipeline-" ++
                                  defId ++ ".yaml",
                                content := content,
                                contentType := "rawText" }] }] }

/-- The pushes URL (source lines 80, 90). -/
def pushesUrl (org project repoId : String) : String :=
  "https://dev.azure.com/" ++ org ++ "/" ++ project ++
    "/_apis/git/repositories/" ++ repoId ++ "/pushes?api-version=6.0"

/-- Embedding of `create_branch_with_yaml` (source lines 78-127): resolve the
base commit from `master`, falling back to `main` when the first answer is
falsy; give up when both are falsy; otherwise POST the push payload and
report whether the response status is 201.  The `repoName` argument is only
printed in the source and is kept for fidelity. -/
def create_branch_with_yaml (env : Env)
    (org project repoId repoName yamlContent defId : String) :
    Bool × List NetCall :=
  let mq := get_latest_commit env org project repoId "master"
  let res :=
    if pyFalsy mq.1 then
      let nq := get_latest_commit env org project repoId "main"
      (nq.1, mq.2 ++ nq.2)
    else (mq.1, mq.2)
  if pyFalsy res.1 then (false, res.2)
  else
    let url := pushesUrl org project repoId
    let data := buildPushData defId yamlContent
    (env.pushPost url data == 201, res.2 ++ [NetCall.postPush url data])

/-- The target-repository selection of `process_pipeline` (source lines
160-168): the repository named like the project when present in the dict,
otherwise the first entry; the empty case is unreachable in the source
(guarded by the emptiness check on line 156). -/
def resolveTargetRepo (project : String)
    (repositories : List (String × String)) : String × String :=
  if repositories.any (fun p => p.1 == project) then
    (project, (repositories.lookup project).getD "")
  else
    match repositories with
    | [] => ("", "")
    | r :: _ => (r.1, r.2)

/-- The YAML-generation URL constructed by `process_pipeline`
(source line 148). -/
def yamlUrlOf (info : PipelineInfo) : String :=
  "https://dev.azure.com/" ++ info.organization ++ "/" ++ info.project ++
    "/_apis/build/definitions/" ++ info.definition_id ++ "/yaml"

/-- Embedding of `process_pipeline` (source lines 141-172): fetch the YAML
(falsy content fails), list repositories (empty dict fails), select the
target repository, and publish the branch. -/
def process_pipeline (env : Env) (info : PipelineInfo) :
    Bool × List NetCall :=
  let yurl := yamlUrlOf info
  let fetched := get_converted_yaml_content env yurl
  if pyFalsy fetched.1 then (false, fetched.2)
  else
    let content := fetched.1.getD ""
    let fetchedRepos := get_repositories env info.organization info.project
    if fetchedRepos.1.isEmpty then (false, fetched.2 ++ fetchedRepos.2)
    else
      let target := resolveTargetRepo info.project fetchedRepos.1
      let cb := create_branch_with_yaml env info.organization info.project
        target.2 target.1 content info.definition_id
      (cb.1, fetched.2 ++ fetchedRepos.2 ++ cb.2)

/-- One attempted match of the shape-(a) pattern
`https://dev\.azure\.com/([^/]+)/([^/]+)/_build\?definitionId=(\d+)` at the
start of `s` (source line 183).  Each `[^/]+` group is the maximal run of
non-`/` characters: any shorter run would place a non-`/` character where
the following literal requires `/`, so backtracking cannot produce another
match. -/
def matchShapeAAt (s : List Char) : Option (String × String × String) :=
  match dropHead "https://dev.azure.com/".toList s with
  | none => none
  | some r1 =>
    let org := r1.takeWhile (fun c => !(c == '/'))
    let r2 := r1.dropWhile (fun c => !(c == '/'))
    if org.isEmpty then none
    else
      match r2 with
      | '/' :: r3 =>
        let proj := r3.takeWhile (fun c => !(c == '/'))
        let r4 := r3.dropWhile (fun c => !(c == '/'))
        if proj.isEmpty then none
        else
          match dropHead "/_build?definitionId=".toList r4 with
          | none => none
          | some r5 =>
            let digits := r5.takeWhile Char.isDigit
            if digits.isEmpty then none
            else some (String.mk org, String.mk proj, String.mk digits)
      | _ => none

/-- `re.search` for the shape-(a) pattern: try every start position from the
left and return the first match's capture groups. -/
def reSearchShapeA : List Char → Option (String × String × String)
  | [] => matchShapeAAt []
  | c :: t =>
    match matchShapeAAt (c :: t) with
    | some r => some r
    | none => reSearchShapeA t

/-- The per-line selection of `main` (source lines 181-187): a line is kept
exactly when it contains `_build?definitionId=` and the shape-(a) pattern
matches somewhere in it, in which case the definitions/yaml URL is built
from the capture groups. -/
def shapeAToYamlUrl (url : String) : Option String :=
  if containsSub "_build?definitionId=".toList url.toList then
    match reSearchShapeA url.toList with
    | some (org, proj, defId) =>
        some ("https://dev.azure.com/" ++ org ++ "/" ++ proj ++
          "/_apis/build/definitions/" ++ defId ++ "/yaml")
    | none => none
  else none

/-- Embedding of `read_input_urls` (source lines 129-139): the stripped
non-blank lines of the input file, or the empty list when the file is
missing or unreadable. -/
def read_input_urls (env : Env) : List String :=
  match env.fileLines with
  | none => []
  | some lines => (lines.map pyStripWs).filter (fun s => !(s == ""))

/-- Embedding of `main` (source lines 174-207): read the input lines, keep
the shape-(a) lines as definitions/yaml URLs, and process each one,
counting successes.  The returned pair is `(successful, total)` as printed
by the source's summary, together with the network trace. -/
def main (env : Env) : (Nat × Nat) × List NetCall :=
  let original := read_input_urls env
  if original.isEmpty then ((0, 0), [])
  else
    let yamlUrls := original.filterMap shapeAToYamlUrl
    if yamlUrls.isEmpty then ((0, 0), [])
    else
      let res := yamlUrls.foldl (fun acc yurl =>
        match parse_pipeline_url yurl with
        | some info =>
            let pr := process_pipeline env info
            (acc.1 + (if pr.1 then 1 else 0), acc.2 ++ pr.2)
        | none => acc) (0, ([] : List NetCall))
      ((res.1, yamlUrls.length), res.2)

/-- The structured status object returned by `run_pipeline_conversion`. -/
inductive RunStatus where
  | complete
  | error (message : String)
deriving DecidableEq

/-- Embedding of `run_pipeline_conversion` (source lines 209-227): a falsy
credential raises `ValueError` before the `try` block (modelled as
`Except.error`, i.e. a propagated exception, with an empty network trace);
otherwise `main` runs and the structured `complete` object is returned.
The header construction (lines 216-220) has no effect observable in this
model and is omitted. -/
def run_pipeline_conversion (env : Env) :
    Except String RunStatus × List NetCall :=
  if pyFalsy env.pat then
    (Except.error "ADO_PAT environment variable not set.", [])
  else
    (Except.ok RunStatus.complete, (main env).2)

/-- Strip spaces from both ends of a character list. -/
def trimSpaces (l : List Char) : List Char :=
  ((l.dropWhile (fun c => c == ' ')).reverse.dropWhile (fun c => c == ' ')).reverse

/-- Modelled from the spec: the YAML Canonicalizer of section 4.4 has no
implementation in the source (the fetched text is used as-is), so this
definition follows the spec's words on a minimal YAML fragment.  A
single-document flow mapping of plain scalar pairs is parsed and re-emitted
in block style, one `key: value` pair per line, preserving the original key
order; any text this micro-parser cannot parse is returned unchanged (parse
failure falls back to the raw text). -/
def canonicalizeSpec (rawText : String) : String :=
  match rawText.toList with
  | [] => rawText
  | c :: rest =>
    if c == '\x7b' then
      match rest.reverse with
      | [] => rawText
      | lastc :: revBody =>
        if lastc == '\x7d' then
          let body := revBody.reverse
          if body.any (fun x => x == '\x7b' || x == '\x7d') then rawText
          else
            let entries := (splitOnChar ',' body).map trimSpaces
            if entries.all (fun e => !e.isEmpty && containsSub [':'] e) then
              String.mk (entries.foldr (fun e acc => e ++ '\n' :: acc) [])
            else rawText
        else rawText
    else rawText

/-! ## Concrete environments and inputs used by the closed theorems -/

/-- A 40-character hex object id used as a resolved branch tip. -/
def oidA : String := "aaaaaaaaaaaaaaaaaaaaaaaaaaaaaaaaaaaaaaaa"

/-- A base environment: credential present, empty input file, every endpoint
failing. -/
def env0 : Env :=
  { pat := some "token",
    fileLines := some [],
    yamlGet := fun _ => (404, ""),
    reposGet := fun _ => (404, []),
    refsGet := fun _ => (404, []),
    pushPost := fun _ _ => 400 }

/-- Environment for the base-object-id theorem: the master tip resolves to
`oidA` and the push is accepted. -/
def envC1 : Env :=
  { env0 with refsGet := fun _ => (200, [oidA]), pushPost := fun _ _ => 201 }

/-- A well-formed shape-(b) definitions/yaml URL. -/
def shapeBExample : String :=
  "https://dev.azure.com/acme/payments/_apis/build/definitions/42/yaml"

/-- Environment whose input file holds exactly one well-formed shape-(b)
URL, with every endpoint ready to succeed. -/
def envC2 : Env :=
  { env0 with fileLines := some [shapeBExample],
              yamlGet := fun _ => (200, "steps: []"),
              reposGet := fun _ => (200, [("payments", "id1")]),
              refsGet := fun _ => (200, [oidA]),
              pushPost := fun _ _ => 201 }

/-- A YAML text in flow style: a canonical block-style re-serialization must
change it. -/
def rawFlow : String := "\x7ba: 1\x7d"

/-- Environment whose YAML endpoint returns a flow-style document, with the
rest of the publish chain succeeding. -/
def envC3 : Env :=
  { env0 with yamlGet := fun _ => (200, rawFlow),
              reposGet := fun _ => (200, [("payments", "id1")]),
              refsGet := fun _ => (200, [oidA]),
              pushPost := fun _ _ => 201 }

/-- The pipeline reference used with `envC3`. -/
def infoC3 : PipelineInfo :=
  { organization := "acme", project := "payments", definition_id := "7",
    base_url := "https://dev.azure.com/acme/payments" }

/-- Environment with the credential variable unset. -/
def envNoPat : Env := { env0 with pat := none }

/-- Environment for the master→main fallback theorem: `heads/master` yields
no refs, `heads/main` yields `oidA`, and the push is accepted. -/
def envC6 : Env :=
  { env0 with
      refsGet := fun u =>
        if u = refsUrl "o" "p" "r" "master" then (200, []) else (200, [oidA]),
      pushPost := fun _ _ => 201 }

/-- The shape-(a) build-summary URL of the spec's example. -/
def urlA : String := "https://dev.azure.com/acme/payments/_build?definitionId=42"

/-- A shape-(b) URL whose host merely contains `dev.azure.com` as a
substring. -/
def evilUrl : String :=
  "https://dev.azure.com.evil.example/acme/payments/_apis/build/definitions/42/yaml"

/-- Environment whose YAML endpoint answers 200 with an empty body. -/
def envC9 : Env :=
  { env0 with yamlGet := fun _ => (200, ""),
              reposGet := fun _ => (200, [("payments", "id1")]),
              refsGet := fun _ => (200, [oidA]),
              pushPost := fun _ _ => 201 }

/-- Environment whose input file has no line matching shape (a). -/
def envC10 : Env :=
  { env0 with pat := some "tok", fileLines := some ["hello world", "   "] }

end MigAccelerator

namespace MigAccelerator

/-! ## Helper lemmas -/

theorem toList_append (a b : String) : (a ++ b).toList = a.toList ++ b.toList := by
  cases a
  cases b
  rfl

theorem listStartsWith_mem {n h : List Char} (hs : listStartsWith n h = true) :
    ∀ c ∈ n, c ∈ h := by
  induction n generalizing h with
  | nil => intro c hc; cases hc
  | cons a as ih =>
    cases h with
    | nil => simp [listStartsWith] at hs
    | cons b bs =>
      simp only [listStartsWith, Bool.and_eq_true, beq_iff_eq] at hs
      intro c hc
      rcases List.mem_cons.mp hc with rfl | hc'
      · rw [hs.1]; exact List.mem_cons_self _ _
      · exact List.mem_cons_of_mem _ (ih hs.2 c hc')

theorem containsSub_mem {n h : List Char} (hs : containsSub n h = true) :
    ∀ c ∈ n, c ∈ h := by
  induction h with
  | nil => exact listStartsWith_mem hs
  | cons b bs ih =>
    simp only [containsSub, Bool.or_eq_true] at hs
    rcases hs with hs | hs
    · exact listStartsWith_mem hs
    · intro c hc
      exact List.mem_cons_of_mem _ (ih hs c hc)

theorem get_latest_commit_trace (env : Env) (org project repoId branch : String) :
    (get_latest_commit env org project repoId branch).2 =
      [NetCall.getRefs (refsUrl org project repoId branch)] := by
  simp only [get_latest_commit]
  split <;> rfl

theorem get_latest_commit_falsy (env : Env) (org project repoId branch : String)
    (h : "" ∉ (env.refsGet (refsUrl org project repoId branch)).2) :
    (pyFalsy (get_latest_commit env org project repoId branch).1 = true ↔
      (get_latest_commit env org project repoId branch).1 = none) := by
  simp only [get_latest_commit]
  split
  · cases hv : (env.refsGet (refsUrl org project repoId branch)).2 with
    | nil => simp [pyFalsy]
    | cons s t =>
      rw [hv] at h
      have hne : s ≠ "" := fun he => h (by rw [he]; exact List.mem_cons_self _ _)
      simp [pyFalsy, hne]
  · simp [pyFalsy]

theorem get_repositories_trace (env : Env) (org project : String) :
    (get_repositories env org project).2 = [NetCall.getRepos (reposUrl org project)] := by
  simp only [get_repositories]
  split <;> rfl

/-! ## Claim theorems -/

/-- C1: the claim says every published pipeline's ref update carries the
resolved base commit of the default branch as its old object id, never the
all-zero sentinel.  The code is the slip (the resolved commit is fetched and
then ignored): in an environment where `master` resolves to `oidA` and the
push is accepted, the submitted ref update's `oldObjectId` is the all-zero
sentinel, which differs from the resolved base commit `oidA`. -/
theorem claim1_zero_sentinel_pushed :
    (get_latest_commit envC1 "acme" "payments" "id1" "master").1 = some oidA ∧
    create_branch_with_yaml envC1 "acme" "payments" "id1" "payments" "steps: []" "42" =
      (true, [NetCall.getRefs (refsUrl "acme" "payments" "id1" "master"),
              NetCall.postPush (pushesUrl "acme" "payments" "id1")
                (buildPushData "42" "steps: []")]) ∧
    (buildPushData "42" "steps: []").refUpdates =
      [{ name := "refs/heads/converted-pipeline-42", oldObjectId := zeroOid }] ∧
    zeroOid ≠ oidA := by decide

/-- C7: the claim says the parser extracts exactly the embedded
organization/project/definitionId; on the spec's own example the shape-(a)
regular expression does extract `("acme", "payments", "42")` and builds the
definitions/yaml URL, but `parse_pipeline_url` then reads path segment 4 of
that URL, which is the literal `"definitions"`, so the PipelineReference the
batch actually constructs carries `definition_id = "definitions"`, not
`"42"` — contradicting the function's own docstring. -/
theorem claim7_definition_id_off_by_one :
    reSearchShapeA urlA.toList = some ("acme", "payments", "42") ∧
    shapeAToYamlUrl urlA =
      some "https://dev.azure.com/acme/payments/_apis/build/definitions/42/yaml" ∧
    parse_pipeline_url
        "https://dev.azure.com/acme/payments/_apis/build/definitions/42/yaml" =
      some { organization := "acme", project := "payments",
             definition_id := "definitions",
             base_url := "https://dev.azure.com/acme/payments" } := by decide

/-- C2 counterexample: an input file whose single line is a well-formed
shape-(b) definitions/yaml URL (which `parse_pipeline_url` itself accepts)
yields a batch that accepts zero pipelines and performs no network call, so
the batch does not accept and process shape-(b) lines as the claim states. -/
theorem claim2_counterexample :
    MigAccelerator.main envC2 = ((0, 0), []) ∧
    parse_pipeline_url shapeBExample ≠ none := by decide

/-- C2 (amended): only input lines containing `_build?definitionId=` and
matching the shape-(a) pattern are accepted by the batch; a well-formed
shape-(b) definitions/yaml URL contains no `?`, hence fails the substring
test of `main` and is skipped. -/
theorem claim2_shape_b_skipped (org proj defId : String)
    (h1 : '?' ∉ org.toList) (h2 : '?' ∉ proj.toList) (h3 : '?' ∉ defId.toList) :
    shapeAToYamlUrl ("https://dev.azure.com/" ++ org ++ "/" ++ proj ++
      "/_apis/build/definitions/" ++ defId ++ "/yaml") = none := by
  have hq : containsSub "_build?definitionId=".toList
      ("https://dev.azure.com/" ++ org ++ "/" ++ proj ++
        "/_apis/build/definitions/" ++ defId ++ "/yaml").toList = false := by
    cases hc : containsSub "_build?definitionId=".toList
        ("https://dev.azure.com/" ++ org ++ "/" ++ proj ++
          "/_apis/build/definitions/" ++ defId ++ "/yaml").toList with
    | false => rfl
    | true =>
      have hmem := containsSub_mem hc '?' (by decide)
      simp only [toList_append, List.mem_append] at hmem
      rcases hmem with ((((((hA | hOrg) | hSl) | hProj) | hB) | hDef) | hC)
      · exact absurd hA (by decide)
      · exact absurd hOrg h1
      · exact absurd hSl (by decide)
      · exact absurd hProj h2
      · exact absurd hB (by decide)
      · exact absurd hDef h3
      · exact absurd hC (by decide)
  simp only [shapeAToYamlUrl]
  rw [hq]
  simp

/-- Witness for the amended C2 at the spec's example coordinates. -/
theorem claim2_shape_b_skipped_witness :
    shapeAToYamlUrl ("https://dev.azure.com/" ++ "acme" ++ "/" ++ "payments" ++
      "/_apis/build/definitions/" ++ "42" ++ "/yaml") = none :=
  claim2_shape_b_skipped "acme" "payments" "42" (by decide) (by decide) (by decide)

/-- C5 counterexample: a shape-(b) URL whose host is
`dev.azure.com.evil.example` — not the platform host — is accepted by
`parse_pipeline_url`, because the source tests substring containment of
`dev.azure.com` in the netloc, not equality. -/
theorem claim5_counterexample :
    (urlNetlocPath evilUrl).1 = "dev.azure.com.evil.example" ∧
    (urlNetlocPath evilUrl).1 ≠ "dev.azure.com" ∧
    parse_pipeline_url evilUrl =
      some { organization := "acme", project := "payments",
             definition_id := "definitions",
             base_url := "https://dev.azure.com/acme/payments" } := by decide

/-- C5 (amended): the parser rejects exactly the URLs whose netloc does not
contain `dev.azure.com` as a substring; whenever that containment fails,
`parse_pipeline_url` reports a parse failure and returns no
PipelineReference. -/
theorem claim5_host_substring (url : String)
    (h : containsSub "dev.azure.com".toList (urlNetlocPath url).1.toList = false) :
    parse_pipeline_url url = none := by
  simp only [parse_pipeline_url]
  rw [h]
  simp

/-- Witness for the amended C5 on a non-platform host. -/
theorem claim5_host_substring_witness :
    parse_pipeline_url "https://example.com/a/b/_apis/build/definitions/1/yaml" = none :=
  claim5_host_substring "https://example.com/a/b/_apis/build/definitions/1/yaml" (by decide)

/-- C4 counterexample: with the credential variable absent the run does not
return the structured error object; the `ValueError` is raised before the
`try` block and propagates (modelled as `Except.error`), with no network
activity. -/
theorem claim4_counterexample :
    run_pipeline_conversion envNoPat =
      (Except.error "ADO_PAT environment variable not set.", []) ∧
    run_pipeline_conversion envNoPat ≠
      (Except.ok (RunStatus.error "ADO_PAT environment variable not set."), []) := by
  constructor
  · rfl
  · intro h
    simp [run_pipeline_conversion, envNoPat, env0, pyFalsy] at h

/-- C4 (amended): if the credential environment variable is absent (or
empty), `run_pipeline_conversion` raises `ValueError` before any network
activity — the exception propagates instead of a structured object being
returned; a run that reaches processing returns the structured
`complete` object. -/
theorem claim4_raise_before_work (env : Env) :
    (pyFalsy env.pat = true →
      run_pipeline_conversion env =
        (Except.error "ADO_PAT environment variable not set.", [])) ∧
    (pyFalsy env.pat = false →
      (run_pipeline_conversion env).1 = Except.ok RunStatus.complete) := by
  constructor <;> intro h <;> simp [run_pipeline_conversion, h]

/-- Witness for the amended C4: the missing-credential environment raises,
and the base environment completes. -/
theorem claim4_raise_before_work_witness :
    run_pipeline_conversion envNoPat =
      (Except.error "ADO_PAT environment variable not set.", []) ∧
    (run_pipeline_conversion env0).1 = Except.ok RunStatus.complete :=
  ⟨(claim4_raise_before_work envNoPat).1 (by decide),
   (claim4_raise_before_work env0).2 (by decide)⟩

end MigAccelerator

namespace MigAccelerator

/-! ## Dictionary and lookup lemmas -/

theorem dictInsert_of_not_mem (d : List (String × String)) (k v : String)
    (h : ∀ p ∈ d, p.1 ≠ k) : dictInsert d k v = d ++ [(k, v)] := by
  unfold dictInsert
  rw [if_neg]
  intro hany
  rcases List.any_eq_true.mp hany with ⟨p, hp, hb⟩
  exact h p hp (by simpa using hb)

theorem foldl_dictInsert_eq (l : List (String × String)) :
    ∀ acc : List (String × String),
      (acc.map Prod.fst ++ l.map Prod.fst).Nodup →
      l.foldl (fun d p => dictInsert d p.1 p.2) acc = acc ++ l := by
  induction l with
  | nil => intro acc _; simp
  | cons p t ih =>
    intro acc h
    obtain ⟨k, v⟩ := p
    simp only [List.map_cons] at h
    have hd : ∀ q ∈ acc, q.1 ≠ k := by
      intro q hq he
      rcases List.nodup_append.mp h with ⟨_, _, hdisj⟩
      exact hdisj (List.mem_map_of_mem Prod.fst hq)
        (he ▸ List.mem_cons_self _ _)
    simp only [List.foldl_cons]
    rw [dictInsert_of_not_mem acc k v hd,
        ih (acc ++ [(k, v)]) (by simpa [List.append_assoc] using h)]
    simp

theorem pythonDict_eq_self (l : List (String × String))
    (h : (l.map Prod.fst).Nodup) : pythonDict l = l := by
  have := foldl_dictInsert_eq l [] (by simpa using h)
  simpa [pythonDict] using this

theorem lookup_eq_some_of_mem :
    ∀ {l : List (String × String)} {k v : String},
      (l.map Prod.fst).Nodup → (k, v) ∈ l → l.lookup k = some v := by
  intro l
  induction l with
  | nil => intro k v _ hm; cases hm
  | cons p t ih =>
    intro k v hnd hm
    obtain ⟨a, b⟩ := p
    simp only [List.map_cons] at hnd
    rcases List.nodup_cons.mp hnd with ⟨ha, ht⟩
    rcases List.mem_cons.mp hm with he | hmt
    · rcases Prod.mk.injEq .. |>.mp he with ⟨h1, h2⟩
      subst h1; subst h2
      simp [List.lookup]
    · have hk : (k == a) = false := by
        rw [beq_eq_false_iff_ne]
        intro he
        exact ha (he ▸ List.mem_map_of_mem Prod.fst hmt)
      simp only [List.lookup, hk]
      exact ih ht hmt

/-! ## Remaining claim theorems -/

/-- C3 counterexample: the YAML fetched for pipeline 7 is the flow-style
document `\x7ba: 1\x7d`; the spec's canonicalizer (block style, key order
preserved) re-serializes it as `a: 1\n`, i.e. parsing succeeds and the
canonical form differs from the raw text — yet the content the branch
publisher submits is the raw text, not the canonical re-serialization,
refuting the claim. -/
theorem claim3_counterexample :
    canonicalizeSpec rawFlow = "a: 1\n" ∧
    canonicalizeSpec rawFlow ≠ rawFlow ∧
    process_pipeline envC3 infoC3 =
      (true, [NetCall.getYaml (yamlUrlOf infoC3),
              NetCall.getRepos (reposUrl "acme" "payments"),
              NetCall.getRefs (refsUrl "acme" "payments" "id1" "master"),
              NetCall.postPush (pushesUrl "acme" "payments" "id1")
                (buildPushData "7" rawFlow)]) := by decide

theorem create_branch_push_content (env : Env)
    (org project repoId repoName yamlContent defId u : String) (d : PushData)
    (hmem : NetCall.postPush u d ∈
      (create_branch_with_yaml env org project repoId repoName yamlContent defId).2) :
    d = buildPushData defId yamlContent := by
  have tm := get_latest_commit_trace env org project repoId "master"
  have tn := get_latest_commit_trace env org project repoId "main"
  simp only [create_branch_with_yaml] at hmem
  by_cases hmf : pyFalsy (get_latest_commit env org project repoId "master").1 = true
  · simp only [hmf, if_true] at hmem
    by_cases hnf : pyFalsy (get_latest_commit env org project repoId "main").1 = true
    · simp only [hnf, if_true] at hmem
      rw [tm, tn] at hmem
      simp at hmem
    · rw [Bool.not_eq_true] at hnf
      simp only [hnf, Bool.false_eq_true, if_false] at hmem
      rw [tm, tn] at hmem
      simp at hmem
      exact hmem.2
  · rw [Bool.not_eq_true] at hmf
    simp only [hmf, Bool.false_eq_true, if_false] at hmem
    rw [tm] at hmem
    simp at hmem
    exact hmem.2

/-- C3 (amended): the file content submitted by the branch publisher equals
the raw fetched YAML text unchanged in every case — no canonical
re-serialization is performed by the source.  Any push submitted while
processing a pipeline carries exactly the body returned by the
YAML-generation endpoint. -/
theorem claim3_raw_text_submitted (env : Env) (info : PipelineInfo)
    (u : String) (d : PushData)
    (hmem : NetCall.postPush u d ∈ (process_pipeline env info).2) :
    d = buildPushData info.definition_id (env.yamlGet (yamlUrlOf info)).2 := by
  simp only [process_pipeline, get_converted_yaml_content] at hmem
  by_cases hs : ((env.yamlGet (yamlUrlOf info)).1 == 200) = true
  · simp only [hs, if_true] at hmem
    by_cases hb : pyFalsy (some (env.yamlGet (yamlUrlOf info)).2) = true
    · simp only [hb, if_true] at hmem
      simp at hmem
    · rw [Bool.not_eq_true] at hb
      simp only [hb, Bool.false_eq_true, if_false] at hmem
      by_cases hre : (get_repositories env info.organization info.project).1.isEmpty = true
      · simp only [hre, if_true] at hmem
        rw [get_repositories_trace] at hmem
        simp at hmem
      · rw [Bool.not_eq_true] at hre
        simp only [hre, Bool.false_eq_true, if_false] at hmem
        rw [get_repositories_trace] at hmem
        simp only [List.append_assoc, List.mem_append] at hmem
        rcases hmem with hmem | hmem
        · simp at hmem
        rcases hmem with hmem | hmem
        · simp at hmem
        · exact create_branch_push_content env info.organization info.project
            (resolveTargetRepo info.project
              (get_repositories env info.organization info.project).1).2
            (resolveTargetRepo info.project
              (get_repositories env info.organization info.project).1).1
            ((some (env.yamlGet (yamlUrlOf info)).2).getD "") info.definition_id
            u d hmem
  · simp only [hs, Bool.false_eq_true, if_false] at hmem
    simp [pyFalsy] at hmem

/-- Witness for the amended C3: in the concrete flow-style environment the
submitted push data is exactly the raw fetched text wrapped in the push
payload. -/
theorem claim3_raw_text_submitted_witness :
    buildPushData "7" rawFlow =
      buildPushData infoC3.definition_id (envC3.yamlGet (yamlUrlOf infoC3)).2 :=
  claim3_raw_text_submitted envC3 infoC3 (pushesUrl "acme" "payments" "id1")
    (buildPushData "7" rawFlow) (by decide)

end MigAccelerator

namespace MigAccelerator

/-- C6: base-commit resolution first queries the tip of `master`; exactly
when that is absent it queries the tip of `main`; and exactly when both are
absent the publish returns failure without submitting a push.  The
hypotheses record the data-model invariant that returned object ids are
40-character hex identifiers, hence never the empty string (on which the
source's truthiness test would otherwise also fall back). -/
theorem claim6_master_then_main (env : Env)
    (org project repoId repoName yamlContent defId : String)
    (hm : "" ∉ (env.refsGet (refsUrl org project repoId "master")).2)
    (hn : "" ∉ (env.refsGet (refsUrl org project repoId "main")).2) :
    ((get_latest_commit env org project repoId "master").1 ≠ none →
      create_branch_with_yaml env org project repoId repoName yamlContent defId =
        (env.pushPost (pushesUrl org project repoId)
            (buildPushData defId yamlContent) == 201,
         [NetCall.getRefs (refsUrl org project repoId "master"),
          NetCall.postPush (pushesUrl org project repoId)
            (buildPushData defId yamlContent)])) ∧
    ((get_latest_commit env org project repoId "master").1 = none →
      (get_latest_commit env org project repoId "main").1 ≠ none →
      create_branch_with_yaml env org project repoId repoName yamlContent defId =
        (env.pushPost (pushesUrl org project repoId)
            (buildPushData defId yamlContent) == 201,
         [NetCall.getRefs (refsUrl org project repoId "master"),
          NetCall.getRefs (refsUrl org project repoId "main"),
          NetCall.postPush (pushesUrl org project repoId)
            (buildPushData defId yamlContent)])) ∧
    ((get_latest_commit env org project repoId "master").1 = none →
      (get_latest_commit env org project repoId "main").1 = none →
      create_branch_with_yaml env org project repoId repoName yamlContent defId =
        (false,
         [NetCall.getRefs (refsUrl org project repoId "master"),
          NetCall.getRefs (refsUrl org project repoId "main")])) := by
  have hmi := get_latest_commit_falsy env org project repoId "master" hm
  have hni := get_latest_commit_falsy env org project repoId "main" hn
  have tm := get_latest_commit_trace env org project repoId "master"
  have tn := get_latest_commit_trace env org project repoId "main"
  refine ⟨fun h1 => ?_, fun h1 h2 => ?_, fun h1 h2 => ?_⟩
  · have hmf : pyFalsy (get_latest_commit env org project repoId "master").1 = false := by
      cases hx : pyFalsy (get_latest_commit env org project repoId "master").1
      · rfl
      · exact absurd (hmi.mp hx) h1
    simp only [create_branch_with_yaml, hmf, Bool.false_eq_true, if_false]
    rw [tm]
    rfl
  · have hmf : pyFalsy (get_latest_commit env org project repoId "master").1 = true := by
      rw [h1]; rfl
    have hnf : pyFalsy (get_latest_commit env org project repoId "main").1 = false := by
      cases hx : pyFalsy (get_latest_commit env org project repoId "main").1
      · rfl
      · exact absurd (hni.mp hx) h2
    simp only [create_branch_with_yaml, hmf, if_true, hnf, Bool.false_eq_true, if_false]
    rw [tm, tn]
    rfl
  · have hmf : pyFalsy (get_latest_commit env org project repoId "master").1 = true := by
      rw [h1]; rfl
    have hnf : pyFalsy (get_latest_commit env org project repoId "main").1 = true := by
      rw [h2]; rfl
    simp only [create_branch_with_yaml, hmf, if_true, hnf]
    rw [tm, tn]
    rfl

/-- Witness for C6: with `heads/master` empty and `heads/main` holding
`oidA`, the publish queries master, then main, then pushes. -/
theorem claim6_witness :
    create_branch_with_yaml envC6 "o" "p" "r" "repo" "y" "5" =
      (envC6.pushPost (pushesUrl "o" "p" "r") (buildPushData "5" "y") == 201,
       [NetCall.getRefs (refsUrl "o" "p" "r" "master"),
        NetCall.getRefs (refsUrl "o" "p" "r" "main"),
        NetCall.postPush (pushesUrl "o" "p" "r") (buildPushData "5" "y")]) :=
  (claim6_master_then_main envC6 "o" "p" "r" "repo" "y" "5"
      (by decide) (by decide)).2.1 (by decide) (by decide)

/-- C8: for every non-empty repository mapping with distinct names (the
source's dict invariant), the Python dict preserves the platform order, and
target resolution selects the repository named like the project when one
exists and otherwise the first entry in platform order. -/
theorem claim8_resolve_target (project : String) (raw : List (String × String))
    (hne : raw ≠ []) (hnd : (raw.map Prod.fst).Nodup) :
    pythonDict raw = raw ∧
    (∀ i, (project, i) ∈ raw → resolveTargetRepo project raw = (project, i)) ∧
    ((∀ p ∈ raw, p.1 ≠ project) → resolveTargetRepo project raw = raw.head hne) := by
  refine ⟨pythonDict_eq_self raw hnd, fun i hi => ?_, fun hno => ?_⟩
  · unfold resolveTargetRepo
    rw [if_pos]
    · rw [lookup_eq_some_of_mem hnd hi]
      rfl
    · exact List.any_eq_true.mpr ⟨(project, i), hi, by simp⟩
  · unfold resolveTargetRepo
    rw [if_neg]
    · cases raw with
      | nil => exact absurd rfl hne
      | cons r t => simp
    · intro hany
      rcases List.any_eq_true.mp hany with ⟨p, hp, hb⟩
      exact hno p hp (by simpa using hb)

/-- Witness for C8 at the spec's example mapping. -/
theorem claim8_witness :
    resolveTargetRepo "payments" [("payments", "id1"), ("other", "id2")] =
      ("payments", "id1") :=
  (claim8_resolve_target "payments" [("payments", "id1"), ("other", "id2")]
      (by decide) (by decide)).2.1 "id1" (by decide)

/-- C9: when the YAML-generation endpoint answers 2xx with an empty body,
the pipeline is treated exactly like a fetch failure: `process_pipeline`
returns failure having performed only the YAML fetch — no repository lookup
and no push.  (A 200 with empty body is falsy; any other 2xx is not equal
to 200 and is already treated as a failed fetch by the source.) -/
theorem claim9_empty_body_2xx (env : Env) (info : PipelineInfo)
    (h2xx : 200 ≤ (env.yamlGet (yamlUrlOf info)).1 ∧
      (env.yamlGet (yamlUrlOf info)).1 < 300)
    (hbody : (env.yamlGet (yamlUrlOf info)).2 = "") :
    process_pipeline env info = (false, [NetCall.getYaml (yamlUrlOf info)]) := by
  simp only [process_pipeline, get_converted_yaml_content]
  cases hs : (env.yamlGet (yamlUrlOf info)).1 == 200 with
  | true => simp [hs, hbody, pyFalsy]
  | false => simp [hs, pyFalsy]

/-- Witness for C9: a concrete environment answering 200 with an empty body
performs only the YAML fetch and fails the pipeline. -/
theorem claim9_witness :
    process_pipeline envC9 infoC3 =
      (false, [NetCall.getYaml (yamlUrlOf infoC3)]) :=
  claim9_empty_body_2xx envC9 infoC3 (by decide) (by decide)

/-- C10: when the credential is present but the input file is missing,
unreadable, or contains no line matching shape (a) — i.e. every stripped
non-blank line fails the shape-(a) selection — the run performs no
pipeline-related network call, processes zero pipelines, and still returns
the structured `complete` object. -/
theorem claim10_no_pipelines_complete (env : Env)
    (hp : pyFalsy env.pat = false)
    (hno : ∀ url ∈ read_input_urls env, shapeAToYamlUrl url = none) :
    run_pipeline_conversion env = (Except.ok RunStatus.complete, []) ∧
    (main env).1 = (0, 0) := by
  have hmain : main env = ((0, 0), []) := by
    cases he : (read_input_urls env).isEmpty with
    | true => simp [main, he]
    | false =>
      have hfm : (read_input_urls env).filterMap shapeAToYamlUrl = [] :=
        List.filterMap_eq_nil_iff.mpr hno
      simp [main, he, hfm]
  constructor
  · simp [run_pipeline_conversion, hp, hmain]
  · rw [hmain]

/-- Witness for C10: an input file with no shape-(a) line yields a complete
run with no network activity and zero pipelines. -/
theorem claim10_witness :
    run_pipeline_conversion envC10 = (Except.ok RunStatus.complete, []) ∧
    (main envC10).1 = (0, 0) :=
  claim10_no_pipelines_complete envC10 (by decide) (by decide)

end MigAccelerator
